import Mathlib

/-!
Verification of the random-object-generation library (`generateRandomData.js`).

Embedding conventions:

* `Math.random()` is modelled by an explicit stream of rational draws in
  `[0, 1)` (`RNG`); every helper that consumes a draw takes the stream and
  returns the advanced stream alongside its result.
* JavaScript numbers are modelled by `ℚ` (exact arithmetic); `Math.floor`
  is `Int.floor`.
* JSON runtime values are the inductive `Value`; the JavaScript value
  `undefined` is `Value.undef`.
* Schema nodes are the inductive `Schema`, with one field per keyword the
  source reads.  The count-valued keywords (`minItems`, `maxItems`,
  `minLength`, `maxLength`) are naturals and `minimum`/`maximum` are
  rationals, following the data model of the specification; an absent
  keyword is `none`.
* The `while` loop of `generateArray` need not terminate, so the whole
  generator is written in fuel-passing style: `Res.fuelOut` means the run
  was cut off by the fuel bound (a run that diverges in JavaScript is
  `fuelOut` for every fuel), and `Res.err` models a thrown `TypeError`
  (entering the item-generation loop when `items` is absent).
* The `switch` on `schema.type` is written as the equivalent chain of
  equality tests.
-/

/-- A single `Math.random()` draw: a rational in `[0, 1)`. -/
def URand : Type := {q : ℚ // 0 ≤ q ∧ q < 1}

/-- The process-wide random source: an infinite stream of draws. -/
def RNG : Type := Nat → URand

/-- Advance the random source past its first draw. -/
def RNG.tail (g : RNG) : RNG := fun n => g (n + 1)

/-- JSON-ish runtime values produced (or listed in `enum`) by the schema. -/
inductive Value : Type where
  | undef : Value
  | null : Value
  | bool (b : Bool) : Value
  | num (q : ℚ) : Value
  | str (s : String) : Value
  | arr (elems : List Value) : Value
  | obj (fields : List (String × Value)) : Value

mutual

/-- Structural (deep) equality of values, the relation computed by the
`JSON.stringify` comparison of the source (line 82). -/
def Value.eqb : Value → Value → Bool
  | .undef, .undef => true
  | .null, .null => true
  | .bool a, .bool b => a == b
  | .num a, .num b => a == b
  | .str a, .str b => a == b
  | .arr as, .arr bs => Value.eqbList as bs
  | .obj fs, .obj gs => Value.eqbFields fs gs
  | _, _ => false

def Value.eqbList : List Value → List Value → Bool
  | [], [] => true
  | a :: as, b :: bs => Value.eqb a b && Value.eqbList as bs
  | _, _ => false

def Value.eqbFields : List (String × Value) → List (String × Value) → Bool
  | [], [] => true
  | (k, v) :: fs, (k', v') :: gs => k == k' && Value.eqb v v' && Value.eqbFields fs gs
  | _, _ => false

end

mutual

theorem Value.eqb_eq : ∀ (a b : Value), Value.eqb a b = true ↔ a = b
  | .undef, b => by cases b <;> simp [Value.eqb]
  | .null, b => by cases b <;> simp [Value.eqb]
  | .bool a, b => by cases b <;> simp [Value.eqb]
  | .num a, b => by cases b <;> simp [Value.eqb]
  | .str a, b => by cases b <;> simp [Value.eqb]
  | .arr as, b => by
    cases b <;> simp [Value.eqb]
    exact Value.eqbList_eq as _
  | .obj fs, b => by
    cases b <;> simp [Value.eqb]
    exact Value.eqbFields_eq fs _

theorem Value.eqbList_eq : ∀ (as bs : List Value), Value.eqbList as bs = true ↔ as = bs
  | [], bs => by cases bs <;> simp [Value.eqbList]
  | a :: as, bs => by
    cases bs with
    | nil => simp [Value.eqbList]
    | cons b bs =>
      simp [Value.eqbList, Value.eqb_eq a b, Value.eqbList_eq as bs]

theorem Value.eqbFields_eq : ∀ (fs gs : List (String × Value)),
    Value.eqbFields fs gs = true ↔ fs = gs
  | [], gs => by cases gs <;> simp [Value.eqbFields]
  | (k, v) :: fs, gs => by
    cases gs with
    | nil => simp [Value.eqbFields]
    | cons g gs =>
      obtain ⟨k', v'⟩ := g
      simp [Value.eqbFields, Value.eqb_eq v v', Value.eqbFields_eq fs gs, and_assoc]

end

instance : DecidableEq Value := fun a b => decidable_of_iff _ (Value.eqb_eq a b)

/-- A schema node: one field for each keyword the source reads.
`properties` keeps the insertion order of the JavaScript object, and
`required` is the plain list of names (`schema.properties || {}` and
`schema.required || []` collapse an absent keyword to the empty list). -/
inductive Schema : Type where
  | mk (enum : Option (List Value)) (type : Option String)
      (minimum maximum : Option ℚ)
      (minLength maxLength : Option Nat)
      (minItems maxItems : Option Nat)
      (uniqueItems : Option Bool)
      (items : Option Schema)
      (properties : List (String × Schema))
      (required : List String) : Schema

def Schema.enum : Schema → Option (List Value)
  | .mk e _ _ _ _ _ _ _ _ _ _ _ => e

def Schema.type : Schema → Option String
  | .mk _ t _ _ _ _ _ _ _ _ _ _ => t

def Schema.minimum : Schema → Option ℚ
  | .mk _ _ mn _ _ _ _ _ _ _ _ _ => mn

def Schema.maximum : Schema → Option ℚ
  | .mk _ _ _ mx _ _ _ _ _ _ _ _ => mx

def Schema.minLength : Schema → Option Nat
  | .mk _ _ _ _ ml _ _ _ _ _ _ _ => ml

def Schema.maxLength : Schema → Option Nat
  | .mk _ _ _ _ _ ml _ _ _ _ _ _ => ml

def Schema.minItems : Schema → Option Nat
  | .mk _ _ _ _ _ _ mi _ _ _ _ _ => mi

def Schema.maxItems : Schema → Option Nat
  | .mk _ _ _ _ _ _ _ mi _ _ _ _ => mi

def Schema.uniqueItems : Schema → Option Bool
  | .mk _ _ _ _ _ _ _ _ u _ _ _ => u

def Schema.items : Schema → Option Schema
  | .mk _ _ _ _ _ _ _ _ _ it _ _ => it

def Schema.properties : Schema → List (String × Schema)
  | .mk _ _ _ _ _ _ _ _ _ _ ps _ => ps

def Schema.required : Schema → List String
  | .mk _ _ _ _ _ _ _ _ _ _ _ r => r

/-- Replace the `type` keyword of a node, keeping every other keyword. -/
def Schema.withType : Schema → Option String → Schema
  | .mk e _ mn mx ml xl mi xi u it ps r, t => .mk e t mn mx ml xl mi xi u it ps r

/-- Replace the `items` child of a node, keeping every other keyword. -/
def Schema.withItems : Schema → Option Schema → Schema
  | .mk e t mn mx ml xl mi xi u _ ps r, it => .mk e t mn mx ml xl mi xi u it ps r

/-- Replace the `properties` children of a node, keeping every other keyword. -/
def Schema.withProperties : Schema → List (String × Schema) → Schema
  | .mk e t mn mx ml xl mi xi u it _ r, ps => .mk e t mn mx ml xl mi xi u it ps r

theorem Schema.withItems_items (sch : Schema) :
    Schema.withItems sch (Schema.items sch) = sch := by
  cases sch; rfl

theorem Schema.withProperties_properties (sch : Schema) :
    Schema.withProperties sch (Schema.properties sch) = sch := by
  cases sch; rfl

/-- Result of a fuel-bounded run: a value, a thrown `TypeError`, or fuel
exhaustion (in particular: a JavaScript run that never terminates is
`fuelOut` for every fuel). -/
inductive Res (α : Type) : Type where
  | ok (a : α) : Res α
  | err : Res α
  | fuelOut : Res α
  deriving DecidableEq

/-- `Number.MAX_SAFE_INTEGER`. -/
def maxSafeInteger : ℚ := 9007199254740991

/-- `Number.MIN_SAFE_INTEGER`. -/
def minSafeInteger : ℚ := -9007199254740991

/-- `Math.floor(Math.random() * (max - min + 1)) + min` (source, lines 15–17). -/
def getRandomInteger (min max : ℚ) (g : RNG) : ℚ × RNG :=
  (((⌊(g 0).val * (max - min + 1)⌋ : ℤ) : ℚ) + min, RNG.tail g)

/-- `getRandomInteger` at integer arguments (the call sites where both
arguments are integers of the runtime, not schema-supplied numbers:
enum indexing, array length, string length).  Agrees with
`getRandomInteger` by `getRandomIntegerZ_cast`. -/
def getRandomIntegerZ (min max : ℤ) (g : RNG) : ℤ × RNG :=
  (⌊(g 0).val * ((max : ℚ) - (min : ℚ) + 1)⌋ + min, RNG.tail g)

theorem getRandomIntegerZ_cast (min max : ℤ) (g : RNG) :
    (((getRandomIntegerZ min max g).1 : ℚ), (getRandomIntegerZ min max g).2)
      = getRandomInteger (min : ℚ) (max : ℚ) g := by
  simp [getRandomIntegerZ, getRandomInteger]

/-- `Math.random() * (max - min) + min` (source, lines 26–28). -/
def getRandomNumber (min max : ℚ) (g : RNG) : ℚ × RNG :=
  ((g 0).val * (max - min) + min, RNG.tail g)

/-- `Math.random() < 0.5` (source, lines 51–53). -/
def getRandomBoolean (g : RNG) : Bool × RNG :=
  (decide ((g 0).val < 1/2), RNG.tail g)

/-- The 62-symbol alphabet of `getRandomString` (source, lines 37–38). -/
def chars : String :=
  "ABCDEFGHIJKLMNOPQRSTUVWXYZabcdefghijklmnopqrstuvwxyz0123456789"

/-- The character-accumulating loop of `getRandomString` (source,
lines 40–42), one recursive step per loop iteration. -/
def getRandomStringAux : Nat → RNG → List Char × RNG
  | 0, g => ([], g)
  | n + 1, g =>
    let c := chars.toList.getD (⌊(g 0).val * (chars.length : ℚ)⌋).toNat ' '
    let p := getRandomStringAux n (RNG.tail g)
    (c :: p.1, p.2)

/-- `getRandomString` (source, lines 36–44); a non-positive requested
length runs the loop zero times. -/
def getRandomString (length : ℤ) (g : RNG) : String × RNG :=
  let p := getRandomStringAux length.toNat g
  (String.mk p.1, p.2)

/-- JavaScript array indexing `a[i]`: a negative or out-of-range index
reads an absent property, giving `undefined`. -/
def jsIndexZ (l : List Value) (i : ℤ) : Value :=
  if 0 ≤ i then l.getD i.toNat Value.undef else Value.undef

mutual

/-- `generateData` (source, lines 126–163): the `enum` branch, then the
`switch` on `schema.type`, written as the equivalent chain of equality
tests.  `schema.enum` is truthy for any present array, even the empty
one. -/
def generateData : Nat → Schema → RNG → Res (Value × RNG)
  | 0, _, _ => .fuelOut
  | fuel + 1, sch, g =>
    match Schema.enum sch with
    | some enumValues =>
      let p := getRandomIntegerZ 0 ((enumValues.length : ℤ) - 1) g
      .ok (jsIndexZ enumValues p.1, p.2)
    | none =>
      if Schema.type sch = some "integer" then
        let intMin := (Schema.minimum sch).getD minSafeInteger
        let intMax := (Schema.maximum sch).getD maxSafeInteger
        let p := getRandomInteger intMin intMax g
        .ok (.num p.1, p.2)
      else if Schema.type sch = some "number" then
        let numMin := (Schema.minimum sch).getD (-(10 ^ 10))
        let numMax := (Schema.maximum sch).getD (10 ^ 10)
        let p := getRandomNumber numMin numMax g
        .ok (.num p.1, p.2)
      else if Schema.type sch = some "string" then
        let minLength := (Schema.minLength sch).getD 0
        let maxLength := (Schema.maxLength sch).getD (minLength + 20)
        let p := getRandomIntegerZ (minLength : ℤ) (maxLength : ℤ) g
        let q := getRandomString p.1 p.2
        .ok (.str q.1, q.2)
      else if Schema.type sch = some "boolean" then
        let p := getRandomBoolean g
        .ok (.bool p.1, p.2)
      else if Schema.type sch = some "array" then
        match generateArray fuel sch g with
        | .ok (xs, g') => .ok (.arr xs, g')
        | .err => .err
        | .fuelOut => .fuelOut
      else if Schema.type sch = some "object" then
        match generateObject fuel sch g with
        | .ok (fields, g') => .ok (.obj fields, g')
        | .err => .err
        | .fuelOut => .fuelOut
      else
        .ok (.null, g)

/-- `generateArray` (source, lines 61–93): defaults for `minItems` and
`maxItems`, the empty short-circuit, then one random length draw and the
item loop. -/
def generateArray : Nat → Schema → RNG → Res (List Value × RNG)
  | 0, _, _ => .fuelOut
  | fuel + 1, sch, g =>
    let minItems := (Schema.minItems sch).getD 0
    let maxItems := (Schema.maxItems sch).getD (minItems + 10)
    if minItems = 0 ∧ maxItems = 0 then .ok ([], g)
    else
      let uniqueItems := (Schema.uniqueItems sch).getD false
      let p := getRandomIntegerZ (minItems : ℤ) (maxItems : ℤ) g
      arrayLoop fuel (Schema.items sch) uniqueItems p.1 [] p.2

/-- The `while (result.length < length)` loop of `generateArray` (source,
lines 76–90), one recursive step per iteration; a duplicate item under
`uniqueItems` is discarded and the loop retries.  Uniqueness compares
`JSON.stringify` images, i.e. structural value equality.  Item generation
with an absent `items` schema throws a `TypeError` in JavaScript
(`Res.err`). -/
def arrayLoop : Nat → Option Schema → Bool → ℤ → List Value → RNG →
    Res (List Value × RNG)
  | 0, _, _, length, result, g =>
    if (result.length : ℤ) < length then .fuelOut else .ok (result, g)
  | fuel + 1, items, uniqueItems, length, result, g =>
    if (result.length : ℤ) < length then
      match items with
      | none => .err
      | some itemsSchema =>
        match generateData fuel itemsSchema g with
        | .ok (item, g') =>
          if uniqueItems then
            if item ∈ result then
              arrayLoop fuel items uniqueItems length result g'
            else
              arrayLoop fuel items uniqueItems length (result ++ [item]) g'
          else
            arrayLoop fuel items uniqueItems length (result ++ [item]) g'
        | .err => .err
        | .fuelOut => .fuelOut
    else .ok (result, g)

/-- `generateObject` (source, lines 101–118): iterate the declared
properties in order. -/
def generateObject : Nat → Schema → RNG → Res (List (String × Value) × RNG)
  | 0, _, _ => .fuelOut
  | fuel + 1, sch, g =>
    objectLoop fuel (Schema.properties sch) (Schema.required sch) [] g

/-- The `for (const key in properties)` loop of `generateObject` (source,
lines 106–115): a required key is always generated; any other key first
draws the `Math.random() < 0.7` coin (`||` short-circuits, so no coin is
drawn for a required key) and is generated only when the coin is below
`0.7`. -/
def objectLoop : Nat → List (String × Schema) → List String →
    List (String × Value) → RNG → Res (List (String × Value) × RNG)
  | _, [], _, result, g => .ok (result, g)
  | 0, _ :: _, _, _, _ => .fuelOut
  | fuel + 1, (key, propSchema) :: rest, required, result, g =>
    if key ∈ required then
      match generateData fuel propSchema g with
      | .ok (v, g') => objectLoop fuel rest required (result ++ [(key, v)]) g'
      | .err => .err
      | .fuelOut => .fuelOut
    else if (g 0).val < 7/10 then
      match generateData fuel propSchema (RNG.tail g) with
      | .ok (v, g') => objectLoop fuel rest required (result ++ [(key, v)]) g'
      | .err => .err
      | .fuelOut => .fuelOut
    else
      objectLoop fuel rest required result (RNG.tail g)

end

/-- Top-level entry point `generateRandomData` (source, lines 7 and 165):
it just invokes the dispatcher on the root node. -/
def generateRandomData (fuel : Nat) (schema : Schema) (g : RNG) :
    Res (Value × RNG) :=
  generateData fuel schema g

/-!
Mutation-observable variant of the generator, for the frame property.

JavaScript schema nodes are mutable heap objects; to make "generation
never mutates the schema" statable, this variant threads each node as
explicit state: every function returns, alongside its value and the
advanced random source, the schema node it was given *as it stands after
the call*.  The translation of an assignment `schema.f = e` would return
a node with field `f` replaced; the source contains no such assignment,
so each return site passes the node through, rebuilding a parent from
the (possibly updated) children it recursed into (`Schema.withItems`,
`Schema.withProperties`).
-/

mutual

/-- `generateData` with its node threaded as mutable state. -/
def generateDataT : Nat → Schema → RNG → Res (Value × RNG × Schema)
  | 0, _, _ => .fuelOut
  | fuel + 1, sch, g =>
    match Schema.enum sch with
    | some enumValues =>
      let p := getRandomIntegerZ 0 ((enumValues.length : ℤ) - 1) g
      .ok (jsIndexZ enumValues p.1, p.2, sch)
    | none =>
      if Schema.type sch = some "integer" then
        let intMin := (Schema.minimum sch).getD minSafeInteger
        let intMax := (Schema.maximum sch).getD maxSafeInteger
        let p := getRandomInteger intMin intMax g
        .ok (.num p.1, p.2, sch)
      else if Schema.type sch = some "number" then
        let numMin := (Schema.minimum sch).getD (-(10 ^ 10))
        let numMax := (Schema.maximum sch).getD (10 ^ 10)
        let p := getRandomNumber numMin numMax g
        .ok (.num p.1, p.2, sch)
      else if Schema.type sch = some "string" then
        let minLength := (Schema.minLength sch).getD 0
        let maxLength := (Schema.maxLength sch).getD (minLength + 20)
        let p := getRandomIntegerZ (minLength : ℤ) (maxLength : ℤ) g
        let q := getRandomString p.1 p.2
        .ok (.str q.1, q.2, sch)
      else if Schema.type sch = some "boolean" then
        let p := getRandomBoolean g
        .ok (.bool p.1, p.2, sch)
      else if Schema.type sch = some "array" then
        match generateArrayT fuel sch g with
        | .ok (xs, g', sch') => .ok (.arr xs, g', sch')
        | .err => .err
        | .fuelOut => .fuelOut
      else if Schema.type sch = some "object" then
        match generateObjectT fuel sch g with
        | .ok (fields, g', sch') => .ok (.obj fields, g', sch')
        | .err => .err
        | .fuelOut => .fuelOut
      else
        .ok (.null, g, sch)

/-- `generateArray` with its node threaded as mutable state; the node
after the call carries whatever the item loop left in `items`. -/
def generateArrayT : Nat → Schema → RNG → Res (List Value × RNG × Schema)
  | 0, _, _ => .fuelOut
  | fuel + 1, sch, g =>
    let minItems := (Schema.minItems sch).getD 0
    let maxItems := (Schema.maxItems sch).getD (minItems + 10)
    if minItems = 0 ∧ maxItems = 0 then .ok ([], g, sch)
    else
      let uniqueItems := (Schema.uniqueItems sch).getD false
      let p := getRandomIntegerZ (minItems : ℤ) (maxItems : ℤ) g
      match arrayLoopT fuel (Schema.items sch) uniqueItems p.1 [] p.2 with
      | .ok (xs, g', items') => .ok (xs, g', Schema.withItems sch items')
      | .err => .err
      | .fuelOut => .fuelOut

/-- The item loop with the `items` node threaded as mutable state across
iterations. -/
def arrayLoopT : Nat → Option Schema → Bool → ℤ → List Value → RNG →
    Res (List Value × RNG × Option Schema)
  | 0, items, _, length, result, g =>
    if (result.length : ℤ) < length then .fuelOut else .ok (result, g, items)
  | fuel + 1, items, uniqueItems, length, result, g =>
    if (result.length : ℤ) < length then
      match items with
      | none => .err
      | some itemsSchema =>
        match generateDataT fuel itemsSchema g with
        | .ok (item, g', itemsSchema') =>
          if uniqueItems then
            if item ∈ result then
              arrayLoopT fuel (some itemsSchema') uniqueItems length result g'
            else
              arrayLoopT fuel (some itemsSchema') uniqueItems length
                (result ++ [item]) g'
          else
            arrayLoopT fuel (some itemsSchema') uniqueItems length
              (result ++ [item]) g'
        | .err => .err
        | .fuelOut => .fuelOut
    else .ok (result, g, items)

/-- `generateObject` with its node threaded as mutable state; the node
after the call carries whatever the property loop left in `properties`. -/
def generateObjectT : Nat → Schema → RNG →
    Res (List (String × Value) × RNG × Schema)
  | 0, _, _ => .fuelOut
  | fuel + 1, sch, g =>
    match objectLoopT fuel (Schema.properties sch) (Schema.required sch) [] [] g with
    | .ok (fields, g', props') => .ok (fields, g', Schema.withProperties sch props')
    | .err => .err
    | .fuelOut => .fuelOut

/-- The property loop with the processed property nodes accumulated as
state (`doneProps`); a skipped optional property keeps its node. -/
def objectLoopT : Nat → List (String × Schema) → List String →
    List (String × Value) → List (String × Schema) → RNG →
    Res (List (String × Value) × RNG × List (String × Schema))
  | _, [], _, result, doneProps, g => .ok (result, g, doneProps)
  | 0, _ :: _, _, _, _, _ => .fuelOut
  | fuel + 1, (key, propSchema) :: rest, required, result, doneProps, g =>
    if key ∈ required then
      match generateDataT fuel propSchema g with
      | .ok (v, g', propSchema') =>
        objectLoopT fuel rest required (result ++ [(key, v)])
          (doneProps ++ [(key, propSchema')]) g'
      | .err => .err
      | .fuelOut => .fuelOut
    else if (g 0).val < 7/10 then
      match generateDataT fuel propSchema (RNG.tail g) with
      | .ok (v, g', propSchema') =>
        objectLoopT fuel rest required (result ++ [(key, v)])
          (doneProps ++ [(key, propSchema')]) g'
      | .err => .err
      | .fuelOut => .fuelOut
    else
      objectLoopT fuel rest required result (doneProps ++ [(key, propSchema)])
        (RNG.tail g)

end

/-- `generateRandomData` with the root node threaded as mutable state. -/
def generateRandomDataT (fuel : Nat) (schema : Schema) (g : RNG) :
    Res (Value × RNG × Schema) :=
  generateDataT fuel schema g

/-! ### Helper lemmas -/

theorem Schema.enum_withType (sch : Schema) (t : Option String) :
    Schema.enum (Schema.withType sch t) = Schema.enum sch := by
  cases sch; rfl

theorem floor_unit_mul_bounds (r : URand) (n : ℤ) (hn : 0 < n) :
    0 ≤ ⌊r.val * (n : ℚ)⌋ ∧ ⌊r.val * (n : ℚ)⌋ < n := by
  have h0 : (0 : ℚ) ≤ r.val := r.2.1
  have h1 : r.val < 1 := r.2.2
  have hnq : (0 : ℚ) < (n : ℚ) := by exact_mod_cast hn
  constructor
  · exact Int.le_floor.mpr (by simpa using mul_nonneg h0 hnq.le)
  · exact Int.floor_lt.mpr (by simpa using mul_lt_of_lt_one_left hnq h1)

theorem getRandomIntegerZ_bounds (min max : ℤ) (h : min ≤ max) (g : RNG) :
    min ≤ (getRandomIntegerZ min max g).1 ∧ (getRandomIntegerZ min max g).1 ≤ max := by
  have hn : (0 : ℤ) < max - min + 1 := by omega
  have hb := floor_unit_mul_bounds (g 0) (max - min + 1) hn
  have hcast : ((max - min + 1 : ℤ) : ℚ) = (max : ℚ) - (min : ℚ) + 1 := by
    push_cast; ring
  rw [hcast] at hb
  simp only [getRandomIntegerZ]
  omega

theorem jsIndexZ_get (l : List Value) (i : ℤ) (h0 : 0 ≤ i)
    (h : i.toNat < l.length) : jsIndexZ l i = l.get ⟨i.toNat, h⟩ := by
  simp [jsIndexZ, h0, List.getD_eq_getElem?_getD, List.getElem?_eq_getElem h]

theorem getRandomInteger_int (za zb : ℤ) (h : za ≤ zb) (g : RNG) :
    ∃ k : ℤ, (getRandomInteger (za : ℚ) (zb : ℚ) g).1 = (k : ℚ) ∧
      za ≤ k ∧ k ≤ zb := by
  have hn : (0 : ℤ) < zb - za + 1 := by omega
  have hb := floor_unit_mul_bounds (g 0) (zb - za + 1) hn
  have hcast : ((zb - za + 1 : ℤ) : ℚ) = (zb : ℚ) - (za : ℚ) + 1 := by
    push_cast; ring
  rw [hcast] at hb
  refine ⟨⌊(g 0).val * ((zb : ℚ) - (za : ℚ) + 1)⌋ + za, ?_, by omega, by omega⟩
  simp [getRandomInteger]

/-! ### Claim theorems -/

/-- Claim C2: for every integer node whose effective bounds (declared, or
the documented safe-integer defaults when absent) are integers `za ≤ zb`,
the generated value is an integer `k` with `za ≤ k ≤ zb`, and exactly one
random draw is consumed. -/
theorem integer_generation_in_bounds (sch : Schema) (fuel : Nat) (g : RNG)
    (za zb : ℤ)
    (henum : Schema.enum sch = none)
    (htype : Schema.type sch = some "integer")
    (hmin : (Schema.minimum sch).getD minSafeInteger = (za : ℚ))
    (hmax : (Schema.maximum sch).getD maxSafeInteger = (zb : ℚ))
    (hle : za ≤ zb) :
    ∃ k : ℤ, generateData (fuel + 1) sch g = .ok (.num (k : ℚ), RNG.tail g) ∧
      za ≤ k ∧ k ≤ zb := by
  obtain ⟨k, hk, h1, h2⟩ := getRandomInteger_int za zb hle g
  refine ⟨k, ?_, h1, h2⟩
  simp only [generateData, henum, htype, hmin, hmax, if_pos]
  rw [hk]
  rfl

/-- Witness for C2 at the schema `{type: "integer", minimum: 10,
maximum: 20}` and the all-zero random stream. -/
theorem integer_generation_in_bounds_witness :
    ∃ k : ℤ,
      generateData 1
          (.mk none (some "integer") (some 10) (some 20) none none none none
            none none [] [])
          (fun _ => ⟨0, by norm_num⟩) =
        .ok (.num (k : ℚ), RNG.tail (fun _ => ⟨0, by norm_num⟩)) ∧
      10 ≤ k ∧ k ≤ 20 :=
  integer_generation_in_bounds _ 0 _ 10 20 rfl rfl
    (by norm_num [Schema.minimum]) (by norm_num [Schema.maximum]) (by norm_num)

/-- Claim C6: for every number node whose effective bounds (declared, or
the documented defaults `-1e10`/`1e10` when absent) satisfy `a ≤ b`, the
generated value `v` satisfies `a ≤ v ≤ b`, and `v < b` whenever `a < b`
(the half-open interval of the specification; real numbers are modelled
exactly, by `ℚ`). -/
theorem number_generation_in_bounds (sch : Schema) (fuel : Nat) (g : RNG)
    (a b : ℚ)
    (henum : Schema.enum sch = none)
    (htype : Schema.type sch = some "number")
    (hmin : (Schema.minimum sch).getD (-(10 ^ 10)) = a)
    (hmax : (Schema.maximum sch).getD (10 ^ 10) = b)
    (hle : a ≤ b) :
    ∃ v : ℚ, generateData (fuel + 1) sch g = .ok (.num v, RNG.tail g) ∧
      a ≤ v ∧ v ≤ b ∧ (a < b → v < b) := by
  have h0 : (0 : ℚ) ≤ (g 0).val := (g 0).2.1
  have h1 : (g 0).val < 1 := (g 0).2.2
  refine ⟨(g 0).val * (b - a) + a, ?_, ?_, ?_, ?_⟩
  · simp only [generateData, henum, htype]
    rw [if_neg (by decide : ¬(some "number" = some "integer")),
      if_pos trivial, hmin, hmax]
    rfl
  · nlinarith
  · nlinarith
  · intro hab
    have := mul_lt_of_lt_one_left (by linarith : (0 : ℚ) < b - a) h1
    linarith

/-- The all-zero random stream, used by the witnesses. -/
def zeroStream : RNG := fun _ => ⟨0, by norm_num⟩

/-- The schema `{type: "number", minimum: 0, maximum: 1}`. -/
def numberSchemaW : Schema :=
  .mk none (some "number") (some 0) (some 1) none none none none none none [] []

/-- Witness for C6 at `numberSchemaW` and the all-zero random stream. -/
theorem number_generation_in_bounds_witness :
    ∃ v : ℚ,
      generateData 1 numberSchemaW zeroStream =
        .ok (.num v, RNG.tail zeroStream) ∧
      0 ≤ v ∧ v ≤ 1 ∧ ((0 : ℚ) < 1 → v < 1) :=
  number_generation_in_bounds numberSchemaW 0 zeroStream 0 1 rfl rfl
    (by norm_num [numberSchemaW, Schema.minimum])
    (by norm_num [numberSchemaW, Schema.maximum]) (by norm_num)

/-- Claim C7: a node without `enum` whose `type` is absent or none of the
six recognised strings yields `null`, without an exception and without
consuming randomness. -/
theorem unknown_type_yields_null (sch : Schema) (fuel : Nat) (g : RNG)
    (henum : Schema.enum sch = none)
    (h1 : Schema.type sch ≠ some "integer")
    (h2 : Schema.type sch ≠ some "number")
    (h3 : Schema.type sch ≠ some "string")
    (h4 : Schema.type sch ≠ some "boolean")
    (h5 : Schema.type sch ≠ some "array")
    (h6 : Schema.type sch ≠ some "object") :
    generateData (fuel + 1) sch g = .ok (.null, g) := by
  simp only [generateData, henum]
  rw [if_neg h1, if_neg h2, if_neg h3, if_neg h4, if_neg h5, if_neg h6]

/-- Witness for C7 at the schema `{type: "foo"}` and the all-zero random
stream. -/
theorem unknown_type_yields_null_witness :
    generateData 1
        (.mk none (some "foo") none none none none none none none none [] [])
        (fun _ => ⟨0, by norm_num⟩) =
      .ok (.null, fun _ => ⟨0, by norm_num⟩) :=
  unknown_type_yields_null _ 0 _ rfl (by decide) (by decide) (by decide)
    (by decide) (by decide) (by decide)

/-- Claim C10: a node whose `enum` is present but empty still takes the
enum branch whatever its declared type: the index drawn is `0`, indexing
the empty array gives `undefined` (`Value.undef`), and no exception is
raised. -/
theorem empty_enum_yields_undef (sch : Schema) (fuel : Nat) (g : RNG)
    (henum : Schema.enum sch = some []) :
    (getRandomIntegerZ 0 ((([] : List Value).length : ℤ) - 1) g).1 = 0 ∧
    generateData (fuel + 1) sch g = .ok (.undef, RNG.tail g) ∧
    ∀ t, generateData (fuel + 1) (Schema.withType sch t) g =
      .ok (.undef, RNG.tail g) := by
  have hidx : (getRandomIntegerZ 0 ((([] : List Value).length : ℤ) - 1) g).1 = 0 := by
    simp [getRandomIntegerZ]
  refine ⟨hidx, ?_, ?_⟩
  · simp only [generateData, henum]
    rw [hidx]
    rfl
  · intro t
    have henum' : Schema.enum (Schema.withType sch t) = some [] := by
      rw [Schema.enum_withType, henum]
    simp only [generateData, henum']
    rw [hidx]
    rfl

/-- Witness for C10 at a schema `{enum: [], type: "integer"}` and the
all-zero random stream. -/
theorem empty_enum_yields_undef_witness :
    (getRandomIntegerZ 0 ((([] : List Value).length : ℤ) - 1)
        (fun _ => ⟨0, by norm_num⟩)).1 = 0 ∧
    generateData 1
        (.mk (some []) (some "integer") none none none none none none none
          none [] [])
        (fun _ => ⟨0, by norm_num⟩) =
      .ok (.undef, RNG.tail (fun _ => ⟨0, by norm_num⟩)) ∧
    ∀ t, generateData 1
        (Schema.withType
          (.mk (some []) (some "integer") none none none none none none none
            none [] []) t)
        (fun _ => ⟨0, by norm_num⟩) =
      .ok (.undef, RNG.tail (fun _ => ⟨0, by norm_num⟩)) :=
  empty_enum_yields_undef _ 0 _ rfl

/-- Claim C1: a node whose `enum` is present and non-empty yields the
element at the drawn index `⌊r * len⌋ ∈ [0, len-1]`; in particular the
result is a member of the enum list, and the result is the same whatever
the declared `type` is (type-based generation is not reached). -/
theorem enum_selects_member (sch : Schema) (fuel : Nat) (g : RNG)
    (l : List Value)
    (henum : Schema.enum sch = some l) (hne : l ≠ []) :
    ∃ i : Fin l.length,
      (i.val : ℤ) = ⌊(g 0).val * (l.length : ℚ)⌋ ∧
      generateData (fuel + 1) sch g = .ok (l.get i, RNG.tail g) ∧
      l.get i ∈ l ∧
      ∀ t, generateData (fuel + 1) (Schema.withType sch t) g =
        .ok (l.get i, RNG.tail g) := by
  have hlen : 0 < l.length := List.length_pos.mpr hne
  have hb := floor_unit_mul_bounds (g 0) (l.length : ℤ) (by exact_mod_cast hlen)
  push_cast at hb
  have hidx : (getRandomIntegerZ 0 ((l.length : ℤ) - 1) g).1 =
      ⌊(g 0).val * (l.length : ℚ)⌋ := by
    simp only [getRandomIntegerZ]
    norm_num
  have hnat : (⌊(g 0).val * (l.length : ℚ)⌋).toNat < l.length := by omega
  refine ⟨⟨(⌊(g 0).val * (l.length : ℚ)⌋).toNat, hnat⟩,
    Int.toNat_of_nonneg hb.1, ?_, ?_, ?_⟩
  · simp only [generateData, henum]
    rw [hidx, jsIndexZ_get l _ hb.1 hnat]
    rfl
  · exact List.get_mem l _ hnat
  · intro t
    have henum' : Schema.enum (Schema.withType sch t) = some l := by
      rw [Schema.enum_withType, henum]
    simp only [generateData, henum']
    rw [hidx, jsIndexZ_get l _ hb.1 hnat]
    rfl

/-- The colour list of the specification's enum scenario. -/
def colourList : List Value := [.str "red", .str "green", .str "blue"]

/-- The schema `{type: "string", enum: ["red", "green", "blue"]}`. -/
def enumSchemaW : Schema :=
  .mk (some colourList) (some "string") none none none none none none none
    none [] []

/-- Witness for C1 at `enumSchemaW` and the all-zero random stream. -/
theorem enum_selects_member_witness :
    ∃ i : Fin colourList.length,
      (i.val : ℤ) = ⌊(zeroStream 0).val * (colourList.length : ℚ)⌋ ∧
      generateData 1 enumSchemaW zeroStream =
        .ok (colourList.get i, RNG.tail zeroStream) ∧
      colourList.get i ∈ colourList ∧
      ∀ t, generateData 1 (Schema.withType enumSchemaW t) zeroStream =
        .ok (colourList.get i, RNG.tail zeroStream) :=
  enum_selects_member enumSchemaW 0 zeroStream colourList rfl (by decide)

/-- Claim C5: when the effective `minItems` and `maxItems` are both `0`,
`generateArray` returns the empty array at once: the random source is
untouched (no length draw) and the result holds even at the smallest
fuel, at which any invocation of the item generator would have produced
`fuelOut` — the item generator is never invoked, whatever `items` is. -/
theorem empty_interval_short_circuit (sch : Schema)
    (hmin : (Schema.minItems sch).getD 0 = 0)
    (hmax : (Schema.maxItems sch).getD ((Schema.minItems sch).getD 0 + 10) = 0) :
    ∀ (fuel : Nat) (g : RNG), generateArray (fuel + 1) sch g = .ok ([], g) := by
  intro fuel g
  simp only [generateArray]
  rw [hmax, hmin, if_pos ⟨rfl, rfl⟩]

/-- The schema `{type: "array", minItems: 0, maxItems: 0}`. -/
def emptyArraySchemaW : Schema :=
  .mk none (some "array") none none none none (some 0) (some 0) none none [] []

/-- Witness for C5 at `emptyArraySchemaW`, minimal fuel, and the all-zero
random stream. -/
theorem empty_interval_short_circuit_witness :
    generateArray 1 emptyArraySchemaW zeroStream = .ok ([], zeroStream) :=
  empty_interval_short_circuit emptyArraySchemaW rfl rfl 0 zeroStream

/-- Invariant of the item loop: a successful run stops exactly at the
requested length (never below `result.length`), and under `uniqueItems`
it preserves freedom from duplicates. -/
theorem arrayLoop_ok_spec : ∀ (fuel : Nat) (items : Option Schema)
    (uniqueItems : Bool) (length : ℤ) (result : List Value) (g : RNG)
    (out : List Value) (g' : RNG),
    arrayLoop fuel items uniqueItems length result g = .ok (out, g') →
    (out.length : ℤ) = max (result.length : ℤ) length ∧
      (uniqueItems = true → result.Nodup → out.Nodup)
  | 0, items, u, len, result, g, out, g' => by
    intro h
    simp only [arrayLoop] at h
    split at h
    · exact Res.noConfusion h
    · cases h
      constructor
      · omega
      · exact fun _ hd => hd
  | fuel + 1, items, u, len, result, g, out, g' => by
    intro h
    simp only [arrayLoop] at h
    split at h
    case isTrue hcond =>
      split at h
      · exact Res.noConfusion h
      case h_2 itemsSchema =>
        split at h
        case h_1 item g1 hgen =>
          split at h
          case isTrue hu =>
            split at h
            case isTrue hmem =>
              have ih := arrayLoop_ok_spec fuel (some itemsSchema) u len
                result g1 out g' h
              exact ⟨ih.1, ih.2⟩
            case isFalse hmem =>
              have ih := arrayLoop_ok_spec fuel (some itemsSchema) u len
                (result ++ [item]) g1 out g' h
              constructor
              · have := ih.1
                simp only [List.length_append, List.length_singleton] at this
                omega
              · intro _ hd
                exact ih.2 hu (by simp [List.nodup_append, hd, hmem])
          case isFalse hu =>
            have ih := arrayLoop_ok_spec fuel (some itemsSchema) u len
              (result ++ [item]) g1 out g' h
            refine ⟨?_, fun hu' => absurd hu' hu⟩
            have := ih.1
            simp only [List.length_append, List.length_singleton] at this
            omega
        · exact Res.noConfusion h
        · exact Res.noConfusion h
    case isFalse hcond =>
      cases h
      constructor
      · omega
      · exact fun _ hd => hd

/-- Claim C3: a terminating `generateArray` run on a node whose effective
`minItems`/`maxItems` satisfy `minItems ≤ maxItems` produces between
`minItems` and `maxItems` elements, and pairwise structurally distinct
elements when `uniqueItems` is set. -/
theorem array_length_bounds_and_unique (sch : Schema) (fuel : Nat) (g : RNG)
    (xs : List Value) (g' : RNG)
    (hle : (Schema.minItems sch).getD 0 ≤
      (Schema.maxItems sch).getD ((Schema.minItems sch).getD 0 + 10))
    (hok : generateArray fuel sch g = .ok (xs, g')) :
    (Schema.minItems sch).getD 0 ≤ xs.length ∧
      xs.length ≤ (Schema.maxItems sch).getD ((Schema.minItems sch).getD 0 + 10) ∧
      ((Schema.uniqueItems sch).getD false = true → xs.Nodup) := by
  cases fuel with
  | zero => exact absurd hok (by simp [generateArray])
  | succ fuel =>
    simp only [generateArray] at hok
    split at hok
    · rename_i hcond
      cases hok
      obtain ⟨h1, h2⟩ := hcond
      exact ⟨by simp [h1], by simp [h2], fun _ => List.nodup_nil⟩
    · have hdraw := getRandomIntegerZ_bounds
        ((Schema.minItems sch).getD 0 : ℤ)
        ((Schema.maxItems sch).getD ((Schema.minItems sch).getD 0 + 10) : ℤ)
        (by exact_mod_cast hle) g
      have hspec := arrayLoop_ok_spec fuel (Schema.items sch)
        ((Schema.uniqueItems sch).getD false) _ [] _ xs g' hok
      have hlen := hspec.1
      simp only [List.length_nil] at hlen
      refine ⟨by omega, by omega, fun hu => hspec.2 hu List.nodup_nil⟩

/-- The schema `{type: "array", minItems: 0, maxItems: 0, uniqueItems:
true}` (already settled before the loop runs). -/
def uniqueArraySchemaW : Schema :=
  .mk none (some "array") none none none none (some 0) (some 0) (some true)
    none [] []

/-- Witness for C3 at `uniqueArraySchemaW` and the all-zero random
stream. -/
theorem array_length_bounds_and_unique_witness :
    (Schema.minItems uniqueArraySchemaW).getD 0 ≤ ([] : List Value).length ∧
      ([] : List Value).length ≤
        (Schema.maxItems uniqueArraySchemaW).getD
          ((Schema.minItems uniqueArraySchemaW).getD 0 + 10) ∧
      ((Schema.uniqueItems uniqueArraySchemaW).getD false = true →
        ([] : List Value).Nodup) :=
  array_length_bounds_and_unique uniqueArraySchemaW 1 zeroStream [] zeroStream
    (by decide) rfl

/-- A one-element enum node: every generated item equals `"x"`. -/
def singletonEnumSchema : Schema :=
  .mk (some [.str "x"]) none none none none none none none none none [] []

/-- An array node requesting `minItems = maxItems = 2` pairwise-distinct
items from the one-value domain of `singletonEnumSchema`. -/
def unsatisfiableArraySchema : Schema :=
  .mk none (some "array") none none none none (some 2) (some 2) (some true)
    (some singletonEnumSchema) [] []

theorem floor_unit (g : RNG) : ⌊(g 0).val⌋ = 0 :=
  Int.floor_eq_zero_iff.mpr ⟨(g 0).2.1, (g 0).2.2⟩

theorem singletonEnum_gen (fuel : Nat) (g : RNG) :
    generateData (fuel + 1) singletonEnumSchema g =
      .ok (.str "x", RNG.tail g) := by
  have he : Schema.enum singletonEnumSchema = some [.str "x"] := rfl
  simp only [generateData, he]
  simp [getRandomIntegerZ, jsIndexZ, floor_unit g]

/-- With every item equal to `"x"`, the uniqueness filter admits at most
one element, so a run demanding two never completes at any fuel. -/
theorem unsat_loop_diverges : ∀ (fuel : Nat) (result : List Value) (g : RNG),
    result.length < 2 → (∀ x ∈ result, x = Value.str "x") →
    arrayLoop fuel (some singletonEnumSchema) true 2 result g = .fuelOut
  | 0, result, g => by
    intro hlen _
    simp only [arrayLoop]
    rw [if_pos (by exact_mod_cast hlen)]
  | fuel + 1, result, g => by
    intro hlen hall
    simp only [arrayLoop]
    rw [if_pos (by exact_mod_cast hlen)]
    cases fuel with
    | zero => simp [generateData]
    | succ fuel' =>
      simp only [singletonEnum_gen fuel' g]
      rw [if_pos trivial]
      rcases result with _ | ⟨a, rest⟩
      · rw [if_neg (by simp)]
        exact unsat_loop_diverges (fuel' + 1) [Value.str "x"] (RNG.tail g)
          (by simp) (by simp)
      · have ha : a = Value.str "x" := hall a (by simp)
        subst ha
        rw [if_pos (by simp)]
        exact unsat_loop_diverges (fuel' + 1) (Value.str "x" :: rest)
          (RNG.tail g) hlen hall

theorem unsat_generateArray_fuelOut (fuel : Nat) (g : RNG) :
    generateArray fuel unsatisfiableArraySchema g = .fuelOut := by
  cases fuel with
  | zero => rfl
  | succ fuel =>
    have h1 : Schema.minItems unsatisfiableArraySchema = some 2 := rfl
    have h2 : Schema.maxItems unsatisfiableArraySchema = some 2 := rfl
    have h3 : Schema.uniqueItems unsatisfiableArraySchema = some true := rfl
    have h4 : Schema.items unsatisfiableArraySchema = some singletonEnumSchema := rfl
    have hlen : getRandomIntegerZ ((2 : ℕ) : ℤ) ((2 : ℕ) : ℤ) g =
        (2, RNG.tail g) := by
      simp [getRandomIntegerZ, floor_unit g]
    simp only [generateArray, h1, h2, h3, h4, Option.getD_some]
    rw [if_neg (by simp), hlen]
    exact unsat_loop_diverges fuel [] (RNG.tail g) (by simp) (by simp)

/-- Claim C8: for the array node `unsatisfiableArraySchema` (uniqueItems
with `minItems = maxItems = 2` over a one-element enum domain) the
rejection-sampling loop never terminates: both `generateArray` and the
dispatcher report fuel exhaustion at *every* fuel, for every random
stream — there is no iteration cap. -/
theorem unsat_unique_array_never_terminates (fuel : Nat) (g : RNG) :
    generateArray fuel unsatisfiableArraySchema g = .fuelOut ∧
      generateData fuel unsatisfiableArraySchema g = .fuelOut := by
  refine ⟨unsat_generateArray_fuelOut fuel g, ?_⟩
  cases fuel with
  | zero => rfl
  | succ fuel =>
    have he : Schema.enum unsatisfiableArraySchema = none := rfl
    have ht : Schema.type unsatisfiableArraySchema = some "array" := rfl
    simp only [generateData, he, ht]
    rw [if_neg (by decide), if_neg (by decide), if_neg (by decide),
      if_neg (by decide), if_pos trivial]
    simp only [unsat_generateArray_fuelOut fuel g]

/-- A successful property-loop run only extends its accumulator, adds
only declared keys, and contains every declared key that is required. -/
theorem objectLoop_ok_spec : ∀ (fuel : Nat) (props : List (String × Schema))
    (required : List String) (result : List (String × Value)) (g : RNG)
    (out : List (String × Value)) (g' : RNG),
    objectLoop fuel props required result g = .ok (out, g') →
    List.Sublist result out ∧
      (∀ kv ∈ out, kv ∈ result ∨ kv.1 ∈ props.map Prod.fst) ∧
      (∀ k s, (k, s) ∈ props → k ∈ required → k ∈ out.map Prod.fst)
  | fuel, [], required, result, g, out, g' => by
    intro h
    simp only [objectLoop] at h
    cases h
    exact ⟨List.Sublist.refl _, fun kv hkv => Or.inl hkv,
      fun k s hmem _ => absurd hmem (List.not_mem_nil _)⟩
  | 0, (key, propSchema) :: rest, required, result, g, out, g' => by
    intro h
    exact Res.noConfusion h
  | fuel + 1, (key, propSchema) :: rest, required, result, g, out, g' => by
    intro h
    simp only [objectLoop] at h
    split at h
    case isTrue hreq =>
      split at h
      case h_1 v g1 hgen =>
        have ih := objectLoop_ok_spec fuel rest required (result ++ [(key, v)])
          g1 out g' h
        refine ⟨(List.sublist_append_left result [(key, v)]).trans ih.1, ?_, ?_⟩
        · intro kv hkv
          rcases ih.2.1 kv hkv with hin | hin
          · rcases List.mem_append.mp hin with hin' | hin'
            · exact Or.inl hin'
            · simp only [List.mem_singleton] at hin'
              subst hin'
              exact Or.inr (by simp)
          · exact Or.inr (by simp [hin])
        · intro k s hmem hk
          rcases List.mem_cons.mp hmem with hhd | htl
          · have hkey : k = key := congrArg Prod.fst hhd
            subst hkey
            have : (k, v) ∈ out := ih.1.subset (by simp)
            exact List.mem_map_of_mem Prod.fst this
          · exact ih.2.2 k s htl hk
      · exact Res.noConfusion h
      · exact Res.noConfusion h
    case isFalse hreq =>
      split at h
      case isTrue hcoin =>
        split at h
        case h_1 v g1 hgen =>
          have ih := objectLoop_ok_spec fuel rest required
            (result ++ [(key, v)]) g1 out g' h
          refine ⟨(List.sublist_append_left result [(key, v)]).trans ih.1, ?_, ?_⟩
          · intro kv hkv
            rcases ih.2.1 kv hkv with hin | hin
            · rcases List.mem_append.mp hin with hin' | hin'
              · exact Or.inl hin'
              · simp only [List.mem_singleton] at hin'
                subst hin'
                exact Or.inr (by simp)
            · exact Or.inr (by simp [hin])
          · intro k s hmem hk
            rcases List.mem_cons.mp hmem with hhd | htl
            · have hkey : k = key := congrArg Prod.fst hhd
              subst hkey
              have : (k, v) ∈ out := ih.1.subset (by simp)
              exact List.mem_map_of_mem Prod.fst this
            · exact ih.2.2 k s htl hk
        · exact Res.noConfusion h
        · exact Res.noConfusion h
      case isFalse hcoin =>
        have ih := objectLoop_ok_spec fuel rest required result (RNG.tail g)
          out g' h
        refine ⟨ih.1, ?_, ?_⟩
        · intro kv hkv
          rcases ih.2.1 kv hkv with hin | hin
          · exact Or.inl hin
          · exact Or.inr (by simp [hin])
        · intro k s hmem hk
          rcases List.mem_cons.mp hmem with hhd | htl
          · have hkey : k = key := congrArg Prod.fst hhd
            subst hkey
            exact absurd hk hreq
          · exact ih.2.2 k s htl hk

/-- An optional (non-required) head property is included exactly when its
inclusion draw is below `0.7`. -/
theorem objectLoop_head_optional (fuel : Nat) (key : String)
    (propSchema : Schema) (rest : List (String × Schema))
    (required : List String) (result : List (String × Value)) (g : RNG)
    (out : List (String × Value)) (g' : RNG)
    (hreq : key ∉ required)
    (h : objectLoop fuel ((key, propSchema) :: rest) required result g =
      .ok (out, g')) :
    ((g 0).val < 7/10 → key ∈ out.map Prod.fst) ∧
      (¬(g 0).val < 7/10 → key ∉ result.map Prod.fst →
        key ∉ rest.map Prod.fst → key ∉ out.map Prod.fst) := by
  cases fuel with
  | zero => exact Res.noConfusion h
  | succ fuel =>
  simp only [objectLoop] at h
  rw [if_neg hreq] at h
  split at h
  case isTrue hcoin =>
    split at h
    case h_1 v g1 hgen =>
      have ih := objectLoop_ok_spec fuel rest required (result ++ [(key, v)])
        g1 out g' h
      constructor
      · intro _
        have : (key, v) ∈ out := ih.1.subset (by simp)
        exact List.mem_map_of_mem Prod.fst this
      · intro hc
        exact absurd hcoin hc
    · exact Res.noConfusion h
    · exact Res.noConfusion h
  case isFalse hcoin =>
    have ih := objectLoop_ok_spec fuel rest required result (RNG.tail g)
      out g' h
    constructor
    · intro hc
      exact absurd hc hcoin
    · intro _ hres hrest hcontra
      obtain ⟨kv, hkv, hfst⟩ := List.mem_map.mp hcontra
      rcases ih.2.1 kv hkv with hin | hin
      · exact hres (hfst ▸ List.mem_map_of_mem Prod.fst hin)
      · exact hrest (hfst ▸ hin)

/-- A run of the property loop over `pre ++ post` decomposes: it first
runs over `pre` alone (reaching some intermediate output and stream
state) and then continues over `post` from there, with some smaller
fuel. -/
theorem objectLoop_append : ∀ (pre : List (String × Schema)) (fuel : Nat)
    (post : List (String × Schema)) (required : List String)
    (acc : List (String × Value)) (g : RNG) (out : List (String × Value))
    (g' : RNG),
    objectLoop fuel (pre ++ post) required acc g = .ok (out, g') →
    ∃ (fuel' : Nat) (mid : List (String × Value)) (gk : RNG),
      fuel' ≤ fuel ∧
      objectLoop fuel pre required acc g = .ok (mid, gk) ∧
      objectLoop fuel' post required mid gk = .ok (out, g')
  | [], fuel, post, required, acc, g, out, g' => by
    intro h
    exact ⟨fuel, acc, g, le_refl fuel, by simp only [objectLoop, List.nil_append], h⟩
  | (key, s) :: pre', fuel, post, required, acc, g, out, g' => by
    intro h
    cases fuel with
    | zero => exact Res.noConfusion h
    | succ f =>
      simp only [List.cons_append, objectLoop] at h
      split at h
      case isTrue hreq =>
        split at h
        case h_1 v g1 hgen =>
          obtain ⟨fuel', mid, gk, hle, hpre, hpost⟩ :=
            objectLoop_append pre' f post required (acc ++ [(key, v)]) g1
              out g' h
          refine ⟨fuel', mid, gk, hle.trans (Nat.le_succ f), ?_, hpost⟩
          simp only [objectLoop]
          rw [if_pos hreq]
          simp only [hgen]
          exact hpre
        · exact Res.noConfusion h
        · exact Res.noConfusion h
      case isFalse hreq =>
        split at h
        case isTrue hcoin =>
          split at h
          case h_1 v g1 hgen =>
            obtain ⟨fuel', mid, gk, hle, hpre, hpost⟩ :=
              objectLoop_append pre' f post required (acc ++ [(key, v)]) g1
                out g' h
            refine ⟨fuel', mid, gk, hle.trans (Nat.le_succ f), ?_, hpost⟩
            simp only [objectLoop]
            rw [if_neg hreq, if_pos hcoin]
            simp only [hgen]
            exact hpre
          · exact Res.noConfusion h
          · exact Res.noConfusion h
        case isFalse hcoin =>
          obtain ⟨fuel', mid, gk, hle, hpre, hpost⟩ :=
            objectLoop_append pre' f post required acc (RNG.tail g) out g' h
          refine ⟨fuel', mid, gk, hle.trans (Nat.le_succ f), ?_, hpost⟩
          simp only [objectLoop]
          rw [if_neg hreq, if_neg hcoin]
          exact hpre

/-- A required property at any declared position carries a value that
`generateData` produced from that property's own schema node, at the
stream state the loop had reached at its turn. -/
theorem objectLoop_required_value (fuel : Nat) (pre : List (String × Schema))
    (key : String) (s : Schema) (rest : List (String × Schema))
    (required : List String) (g : RNG) (out : List (String × Value))
    (g' : RNG) (hreq : key ∈ required)
    (h : objectLoop fuel (pre ++ (key, s) :: rest) required [] g =
      .ok (out, g')) :
    ∃ (mid : List (String × Value)) (gk : RNG) (fuel₂ : Nat) (v : Value)
      (g₂ : RNG),
      objectLoop fuel pre required [] g = .ok (mid, gk) ∧
      generateData fuel₂ s gk = .ok (v, g₂) ∧ (key, v) ∈ out := by
  obtain ⟨fuel', mid, gk, hle, hpre, hpost⟩ :=
    objectLoop_append pre fuel ((key, s) :: rest) required [] g out g' h
  cases fuel' with
  | zero => exact Res.noConfusion hpost
  | succ f =>
    simp only [objectLoop] at hpost
    rw [if_pos hreq] at hpost
    split at hpost
    case h_1 v g₂ hgen =>
      have spec := objectLoop_ok_spec f rest required (mid ++ [(key, v)]) g₂
        out g' hpost
      exact ⟨mid, gk, f, v, g₂, hpre, hgen, spec.1.subset (by simp)⟩
    · exact Res.noConfusion hpost
    · exact Res.noConfusion hpost

/-- An optional property at any declared position (with a key distinct
from every other declared key) is included exactly when the first draw
of the stream state the loop had reached at its turn is below `0.7`. -/
theorem objectLoop_optional_iff (fuel : Nat) (pre : List (String × Schema))
    (key : String) (s : Schema) (rest : List (String × Schema))
    (required : List String) (g : RNG) (out : List (String × Value))
    (g' : RNG) (hreq : key ∉ required)
    (hpre' : key ∉ pre.map Prod.fst) (hrest : key ∉ rest.map Prod.fst)
    (h : objectLoop fuel (pre ++ (key, s) :: rest) required [] g =
      .ok (out, g')) :
    ∃ (mid : List (String × Value)) (gk : RNG),
      objectLoop fuel pre required [] g = .ok (mid, gk) ∧
      (key ∈ out.map Prod.fst ↔ (gk 0).val < 7/10) := by
  obtain ⟨fuel', mid, gk, hle, hpre, hpost⟩ :=
    objectLoop_append pre fuel ((key, s) :: rest) required [] g out g' h
  have hmid : key ∉ mid.map Prod.fst := by
    intro hk
    obtain ⟨kv, hkv, hfst⟩ := List.mem_map.mp hk
    have spec := objectLoop_ok_spec fuel pre required [] g mid gk hpre
    rcases spec.2.1 kv hkv with hin | hin
    · exact absurd hin (List.not_mem_nil _)
    · exact hpre' (hfst ▸ hin)
  have hd := objectLoop_head_optional fuel' key s rest required mid gk out g'
    hreq hpost
  refine ⟨mid, gk, hpre, ?_, ?_⟩
  · intro hk
    by_contra hc
    exact hd.2 hc hmid hrest hk
  · exact hd.1

/-- Claim C4, amended: a successful `generateObject` run emits no key
outside the declared `properties`; every declared property listed in
`required` is emitted, and its emitted value is one that `generateData`
produced from that property's own schema node at the stream state
reached at its turn; and every declared property *not* listed in
`required` — at any position, with a key distinct from the other
declared keys — is included exactly when its inclusion draw, the first
draw of the stream state reached at its turn, is below `0.7`.  (A
required name with no declared schema node is silently skipped; see the
counterexample.) -/
theorem object_required_and_declared (sch : Schema) (fuel : Nat) (g : RNG)
    (out : List (String × Value)) (g' : RNG)
    (hok : generateObject (fuel + 1) sch g = .ok (out, g')) :
    (∀ kv ∈ out, kv.1 ∈ (Schema.properties sch).map Prod.fst) ∧
      (∀ k s, (k, s) ∈ Schema.properties sch → k ∈ Schema.required sch →
        k ∈ out.map Prod.fst) ∧
      (∀ pre key s rest,
        Schema.properties sch = pre ++ (key, s) :: rest →
        key ∈ Schema.required sch →
        ∃ (mid : List (String × Value)) (gk : RNG) (fuel₂ : Nat) (v : Value)
          (g₂ : RNG),
          objectLoop fuel pre (Schema.required sch) [] g = .ok (mid, gk) ∧
          generateData fuel₂ s gk = .ok (v, g₂) ∧ (key, v) ∈ out) ∧
      (∀ pre key s rest,
        Schema.properties sch = pre ++ (key, s) :: rest →
        key ∉ Schema.required sch →
        key ∉ pre.map Prod.fst → key ∉ rest.map Prod.fst →
        ∃ (mid : List (String × Value)) (gk : RNG),
          objectLoop fuel pre (Schema.required sch) [] g = .ok (mid, gk) ∧
          (key ∈ out.map Prod.fst ↔ (gk 0).val < 7/10)) := by
  simp only [generateObject] at hok
  have spec := objectLoop_ok_spec fuel (Schema.properties sch)
    (Schema.required sch) [] g out g' hok
  refine ⟨?_, spec.2.2, ?_, ?_⟩
  · intro kv hkv
    rcases spec.2.1 kv hkv with hin | hin
    · exact absurd hin (List.not_mem_nil _)
    · exact hin
  · intro pre key s rest hprops hreq
    rw [hprops] at hok
    exact objectLoop_required_value fuel pre key s rest (Schema.required sch)
      g out g' hreq hok
  · intro pre key s rest hprops hreq hpre' hrest
    rw [hprops] at hok
    exact objectLoop_optional_iff fuel pre key s rest (Schema.required sch)
      g out g' hreq hpre' hrest hok

/-- An object node declaring no properties but requiring `"id"`. -/
def requiredNotDeclaredSchema : Schema :=
  .mk none (some "object") none none none none none none none none [] ["id"]

/-- Counterexample to C4 as stated: this node lists `"id"` in `required`,
yet generation succeeds with an *empty* object — a required name that is
not declared in `properties` is never emitted (the loop iterates only
declared properties). -/
theorem object_required_counterexample :
    "id" ∈ Schema.required requiredNotDeclaredSchema ∧
      generateObject 1 requiredNotDeclaredSchema zeroStream =
        .ok ([], zeroStream) ∧
      "id" ∉ (([] : List (String × Value)).map Prod.fst) :=
  ⟨by simp [requiredNotDeclaredSchema, Schema.required], rfl, by simp⟩

/-- An object node with no declared properties and no required names. -/
def emptyObjectSchemaW : Schema :=
  .mk none (some "object") none none none none none none none none [] []

/-- Witness for the amended C4 at `emptyObjectSchemaW` and the all-zero
random stream. -/
theorem object_required_and_declared_witness :
    (∀ kv ∈ ([] : List (String × Value)),
      kv.1 ∈ (Schema.properties emptyObjectSchemaW).map Prod.fst) ∧
      (∀ k s, (k, s) ∈ Schema.properties emptyObjectSchemaW →
        k ∈ Schema.required emptyObjectSchemaW →
        k ∈ ([] : List (String × Value)).map Prod.fst) ∧
      (∀ pre key s rest,
        Schema.properties emptyObjectSchemaW = pre ++ (key, s) :: rest →
        key ∈ Schema.required emptyObjectSchemaW →
        ∃ (mid : List (String × Value)) (gk : RNG) (fuel₂ : Nat) (v : Value)
          (g₂ : RNG),
          objectLoop 0 pre (Schema.required emptyObjectSchemaW) []
            zeroStream = .ok (mid, gk) ∧
          generateData fuel₂ s gk = .ok (v, g₂) ∧
          (key, v) ∈ ([] : List (String × Value))) ∧
      (∀ pre key s rest,
        Schema.properties emptyObjectSchemaW = pre ++ (key, s) :: rest →
        key ∉ Schema.required emptyObjectSchemaW →
        key ∉ pre.map Prod.fst → key ∉ rest.map Prod.fst →
        ∃ (mid : List (String × Value)) (gk : RNG),
          objectLoop 0 pre (Schema.required emptyObjectSchemaW) []
            zeroStream = .ok (mid, gk) ∧
          (key ∈ ([] : List (String × Value)).map Prod.fst ↔
            (gk 0).val < 7/10)) :=
  object_required_and_declared emptyObjectSchemaW 0 zeroStream [] zeroStream rfl

/-- No run of the state-threaded generator changes any schema node: every
function of the tracked variant returns exactly the node (or child-node
list) it was given. -/
theorem trackedPreserve : ∀ fuel : Nat,
    (∀ (sch : Schema) (g : RNG) (v : Value) (g' : RNG) (sch' : Schema),
      generateDataT fuel sch g = .ok (v, g', sch') → sch' = sch) ∧
    (∀ (sch : Schema) (g : RNG) (xs : List Value) (g' : RNG) (sch' : Schema),
      generateArrayT fuel sch g = .ok (xs, g', sch') → sch' = sch) ∧
    (∀ (items : Option Schema) (u : Bool) (len : ℤ) (result : List Value)
      (g : RNG) (out : List Value) (g' : RNG) (items' : Option Schema),
      arrayLoopT fuel items u len result g = .ok (out, g', items') →
      items' = items) ∧
    (∀ (sch : Schema) (g : RNG) (fields : List (String × Value)) (g' : RNG)
      (sch' : Schema),
      generateObjectT fuel sch g = .ok (fields, g', sch') → sch' = sch) ∧
    (∀ (props : List (String × Schema)) (required : List String)
      (result : List (String × Value)) (doneProps : List (String × Schema))
      (g : RNG) (out : List (String × Value)) (g' : RNG)
      (props' : List (String × Schema)),
      objectLoopT fuel props required result doneProps g =
        .ok (out, g', props') → props' = doneProps ++ props)
  | 0 => by
    refine ⟨?_, ?_, ?_, ?_, ?_⟩
    · intro sch g v g' sch' h
      exact Res.noConfusion h
    · intro sch g xs g' sch' h
      exact Res.noConfusion h
    · intro items u len result g out g' items' h
      simp only [arrayLoopT] at h
      split at h
      · exact Res.noConfusion h
      · cases h; rfl
    · intro sch g fields g' sch' h
      exact Res.noConfusion h
    · intro props required result doneProps g out g' props' h
      cases props with
      | nil =>
        simp only [objectLoopT] at h
        cases h
        simp
      | cons p rest =>
        obtain ⟨key, propSchema⟩ := p
        exact Res.noConfusion h
  | fuel + 1 => by
    obtain ⟨ihData, ihArr, ihALoop, ihObj, ihOLoop⟩ := trackedPreserve fuel
    refine ⟨?_, ?_, ?_, ?_, ?_⟩
    · intro sch g v g' sch' h
      simp only [generateDataT] at h
      split at h
      · cases h; rfl
      · split at h
        · cases h; rfl
        · split at h
          · cases h; rfl
          · split at h
            · cases h; rfl
            · split at h
              · cases h; rfl
              · split at h
                · split at h
                  case h_1 =>
                    rename_i xs g1 sch1 hgen
                    cases h
                    exact ihArr _ _ _ _ _ hgen
                  · exact Res.noConfusion h
                  · exact Res.noConfusion h
                · split at h
                  · split at h
                    case h_1 =>
                      rename_i fields g1 sch1 hgen
                      cases h
                      exact ihObj _ _ _ _ _ hgen
                    · exact Res.noConfusion h
                    · exact Res.noConfusion h
                  · cases h; rfl
    · intro sch g xs g' sch' h
      simp only [generateArrayT] at h
      split at h
      · cases h; rfl
      · split at h
        case h_1 =>
          rename_i ys g1 items1 hloop
          cases h
          have h1 := ihALoop _ _ _ _ _ _ _ _ hloop
          rw [h1, Schema.withItems_items]
        · exact Res.noConfusion h
        · exact Res.noConfusion h
    · intro items u len result g out g' items' h
      simp only [arrayLoopT] at h
      split at h
      · split at h
        · exact Res.noConfusion h
        case h_2 itemsSchema =>
          split at h
          case h_1 =>
            rename_i item g1 itemsSchema1 hgen
            have hitem : itemsSchema1 = itemsSchema :=
              ihData itemsSchema g item g1 itemsSchema1 hgen
            subst hitem
            split at h
            · split at h
              · exact ihALoop (some itemsSchema1) u len result g1 out g'
                  items' h
              · exact ihALoop (some itemsSchema1) u len (result ++ [item]) g1
                  out g' items' h
            · exact ihALoop (some itemsSchema1) u len (result ++ [item]) g1
                out g' items' h
          · exact Res.noConfusion h
          · exact Res.noConfusion h
      · cases h; rfl
    · intro sch g fields g' sch' h
      simp only [generateObjectT] at h
      split at h
      case h_1 =>
        rename_i fields1 g1 props1 hloop
        cases h
        have h1 := ihOLoop _ _ _ _ _ _ _ _ hloop
        simp only [List.nil_append] at h1
        rw [h1, Schema.withProperties_properties]
      · exact Res.noConfusion h
      · exact Res.noConfusion h
    · intro props required result doneProps g out g' props' h
      cases props with
      | nil =>
        simp only [objectLoopT] at h
        cases h
        simp
      | cons p rest =>
        obtain ⟨key, propSchema⟩ := p
        simp only [objectLoopT] at h
        split at h
        case isTrue hreq =>
          split at h
          case h_1 =>
            rename_i v g1 ps1 hgen
            have hps : ps1 = propSchema := ihData propSchema g v g1 ps1 hgen
            subst hps
            have h1 := ihOLoop rest required (result ++ [(key, v)])
              (doneProps ++ [(key, ps1)]) g1 out g' props' h
            simp [h1]
          · exact Res.noConfusion h
          · exact Res.noConfusion h
        case isFalse hreq =>
          split at h
          case isTrue hcoin =>
            split at h
            case h_1 =>
              rename_i v g1 ps1 hgen
              have hps : ps1 = propSchema :=
                ihData propSchema (RNG.tail g) v g1 ps1 hgen
              subst hps
              have h1 := ihOLoop rest required (result ++ [(key, v)])
                (doneProps ++ [(key, ps1)]) g1 out g' props' h
              simp [h1]
            · exact Res.noConfusion h
            · exact Res.noConfusion h
          case isFalse hcoin =>
            have h1 := ihOLoop rest required result
              (doneProps ++ [(key, propSchema)]) (RNG.tail g) out g' props' h
            simp [h1]

/-- Claim C9: a run of the generator leaves the schema unchanged — in the
state-threaded model, in which a field assignment to any (possibly
nested) node would surface as a changed root node, the root node after a
successful `generateRandomData` call equals the input node. -/
theorem generation_preserves_schema (fuel : Nat) (schema : Schema) (g : RNG)
    (v : Value) (g' : RNG) (sch' : Schema)
    (hok : generateRandomDataT fuel schema g = .ok (v, g', sch')) :
    sch' = schema :=
  (trackedPreserve fuel).1 schema g v g' sch' hok

/-- The schema `{type: "foo"}` (unknown type). -/
def fooSchemaW : Schema :=
  .mk none (some "foo") none none none none none none none none [] []

/-- Witness for C9: the run on `fooSchemaW` succeeds and returns the very
same node. -/
theorem generation_preserves_schema_witness : fooSchemaW = fooSchemaW :=
  generation_preserves_schema 1 fooSchemaW zeroStream .null zeroStream
    fooSchemaW rfl
